import Mathlib

/-!
# Verification of `crypto_report.py` (CMC-report)

Shallow embedding of the resilient API request pipeline of
`src/crypto_report.py` — rate limiting (`_rate_limit_check`), the retry
loop with exponential backoff (`_make_api_request`), and the payload
mapping layers (`get_token_data`, `get_top_performers`) — together with
theorems settling the specification claims.

Modelling conventions:
* Wall-clock time and delays are rationals (`ℚ`).
* One HTTP attempt's outcome is either a network-level error
  (`requests.get` raising a `RequestException`) or a response with a
  status code, an optional `status.error_message` field of its JSON
  body, and a payload.  The environment is a function from attempt
  index to outcome, and the per-attempt jitter draw
  (`random.uniform(0, 1)`) is a function from attempt index to `ℚ`.
* Python exceptions that escape a function are explicit constructors;
  a Python function that can return `None` returns an `Option`.
* Python's stable `sorted(key=...)` / `sorted(key=..., reverse=True)`
  is modelled with Mathlib's `List.insertionSort`, which is stable for
  a total transitive relation; a stable sort's output is uniquely
  determined by the relation, so this agrees with CPython's Timsort.
-/

/-- Whether `pat` is a prefix of `l` (helper for substring containment). -/
def listStartsWith {α : Type} [DecidableEq α] : List α → List α → Bool
  | [], _ => true
  | _ :: _, [] => false
  | a :: as, b :: bs => decide (a = b) && listStartsWith as bs

/-- Whether `pat` occurs contiguously inside `l`. -/
def listHasSub {α : Type} [DecidableEq α] (pat : List α) : List α → Bool
  | [] => pat.isEmpty
  | b :: bs => listStartsWith pat (b :: bs) || listHasSub pat bs

/-- `needle in hay` on Python strings: substring containment. -/
def containsSubstr (needle hay : String) : Bool :=
  listHasSub needle.toList hay.toList

/-- Outcome of one `requests.get(url, ...)` call, as seen by
`_make_api_request` (crypto_report.py line 38).  `err` is a raised
`requests.exceptions.RequestException` (timeout, connection reset,
DNS failure, ...); `resp` is a response with its HTTP status code,
the `status.error_message` field of its JSON body when present
(read on the 401 path, line 42), and its decoded payload. -/
inductive HttpOutcome (α : Type) where
  | err : HttpOutcome α
  | resp (statusCode : Nat) (errorMessage : Option String) (payload : α) : HttpOutcome α
deriving DecidableEq

/-- How `_make_api_request` can end (crypto_report.py lines 30-57):
* `success`: a response was returned to the caller (line 49) — the
  401 status check and `raise_for_status` passed;
* `noneResult`: the function returned `None` (line 46, a 401 whose
  `error_message` lacks the `"Invalid API key"` indicator);
* `authRaise`: the `ValueError("Invalid API key - please check your
  .env file")` of line 45 escaped (a `ValueError` is not a
  `RequestException`, so the `except` clause of line 51 lets it through);
* `exhaustedRaise`: the `raise` of line 53 re-raised the transient
  `RequestException` of the final attempt. -/
inductive ApiResult (α : Type) where
  | success (statusCode : Nat) (errorMessage : Option String) (payload : α) : ApiResult α
  | noneResult : ApiResult α
  | authRaise : ApiResult α
  | exhaustedRaise : ApiResult α
deriving DecidableEq

/-- Observable trace of one `_make_api_request` run: its result, how
many HTTP GET calls it issued, and the backoff sleeps it performed
(line 57), in order.  Rate-limit waits are modelled separately by
`rateLimitCheck` and are not backoff sleeps. -/
structure RunTrace (α : Type) where
  result : ApiResult α
  calls : Nat
  sleeps : List ℚ
deriving DecidableEq

/-- Backoff delay of crypto_report.py line 55:
`delay = base_delay * (2 ** attempt) + random.uniform(0, 1)`,
with the jitter draw passed in explicitly. -/
def backoffDelay (baseDelay : ℚ) (attempt : Nat) (jitter : ℚ) : ℚ :=
  baseDelay * 2 ^ attempt + jitter

/-- The `for attempt in range(max_retries)` loop of `_make_api_request`
(lines 35-57), as structural recursion on the number of remaining
iterations: `runLoop out jit base r attempt` runs the loop body for
attempt indices `attempt, attempt+1, ...` with `r` iterations left,
so the top-level call has `r = max_retries` and `attempt = 0`, and the
code's last-attempt test `attempt == max_retries - 1` is `r = 1`, i.e.
`r' = 0` after peeling one iteration.  If the loop runs out of
iterations the Python function falls off the end and returns `None`. -/
def runLoop {α : Type} (out : Nat → HttpOutcome α) (jit : Nat → ℚ)
    (baseDelay : ℚ) : Nat → Nat → RunTrace α
  | 0, _ => ⟨.noneResult, 0, []⟩
  | r + 1, attempt =>
    match out attempt with
    | .err =>
      -- `except requests.exceptions.RequestException` (line 51)
      if r = 0 then ⟨.exhaustedRaise, 1, []⟩   -- line 52-53: re-raise
      else
        let rest := runLoop out jit baseDelay r (attempt + 1)
        ⟨rest.result, rest.calls + 1,
          backoffDelay baseDelay attempt (jit attempt) :: rest.sleeps⟩
    | .resp code msg payload =>
      if code = 401 then
        -- line 41-46
        if containsSubstr "Invalid API key" (msg.getD "Unauthorized") then
          ⟨.authRaise, 1, []⟩      -- line 45: ValueError escapes the loop
        else
          ⟨.noneResult, 1, []⟩     -- line 46: return None
      else if 400 ≤ code ∧ code < 600 then
        -- line 48: `response.raise_for_status()` raises `HTTPError`
        -- (a `RequestException`) exactly for status codes 400-599,
        -- so these land in the same `except` clause as network errors
        if r = 0 then ⟨.exhaustedRaise, 1, []⟩
        else
          let rest := runLoop out jit baseDelay r (attempt + 1)
          ⟨rest.result, rest.calls + 1,
            backoffDelay baseDelay attempt (jit attempt) :: rest.sleeps⟩
      else
        ⟨.success code msg payload, 1, []⟩   -- line 49: return response

/-- `_make_api_request` with the code's constants
`max_retries = 5`, `base_delay = 1` (lines 32-33). -/
def makeApiRequest {α : Type} (out : Nat → HttpOutcome α) (jit : Nat → ℚ) :
    RunTrace α :=
  runLoop out jit 1 5 0

/-- An outcome the retry loop treats as transient (retried): a raised
network-level error, or a status in 400-599 other than the
specially-handled 401. -/
def isTransientB {α : Type} : HttpOutcome α → Bool
  | .err => true
  | .resp code _ _ => decide (code ≠ 401 ∧ 400 ≤ code ∧ code < 600)

/-- An outcome taking the fatal-auth path of line 44: a 401 whose
body's `error_message` contains `"Invalid API key"`. -/
def isAuthB {α : Type} : HttpOutcome α → Bool
  | .err => false
  | .resp code msg _ =>
    code == 401 && containsSubstr "Invalid API key" (msg.getD "Unauthorized")

/-- `_rate_limit_check` (crypto_report.py lines 23-28) with time passed
explicitly: given the requests-per-minute budget, the stored
`last_request_time` and the current wall-clock time, it returns the
sleep performed and the new `last_request_time`.  The model idealises
`time.time()` after the sleep as exactly `currentTime + sleep`. -/
def rateLimitCheck (rate lastRequestTime currentTime : ℚ) : ℚ × ℚ :=
  if currentTime - lastRequestTime < 60 / rate then
    let s := 60 / rate - (currentTime - lastRequestTime)
    (s, currentTime + s)
  else
    (0, currentTime)

section RateLimit

/-- Helper: one `rateLimitCheck` never permits earlier than
`lastRequestTime + 60/rate`. -/
theorem rateLimitCheck_lower (rate last now : ℚ) :
    last + 60 / rate ≤ (rateLimitCheck rate last now).2 := by
  unfold rateLimitCheck
  split
  · simp only
    linarith
  · simp only
    linarith [not_lt.mp (by assumption : ¬ now - last < 60 / rate)]

/-- Helper: `rateLimitCheck` never returns a permit time before the
call time. -/
theorem rateLimitCheck_ge_now (rate last now : ℚ) :
    now ≤ (rateLimitCheck rate last now).2 := by
  unfold rateLimitCheck
  split
  · simp only
    linarith [(by assumption : now - last < 60 / rate)]
  · simp only
    exact le_refl now

end RateLimit

/-! ## Payload model and the mapping layers -/

/-- The `quote.USD` sub-object of one token record, with each field
optional: a `none` field raises `KeyError` when read with `[...]`
and yields `None` when read with `.get(..., None)`. -/
structure RawQuote where
  price : Option ℚ
  percent_change_7d : Option ℚ
  percent_change_30d : Option ℚ
  percent_change_90d : Option ℚ
  percent_change_1y : Option ℚ
deriving DecidableEq

/-- One raw token record of an API payload.  `quoteUSD` collapses the
two lookups `token['quote']['USD']`. -/
structure RawToken where
  symbol : Option String
  name : Option String
  cmc_rank : Option Int
  quoteUSD : Option RawQuote
deriving DecidableEq

/-- A decoded JSON body: `data` is the `'data'` entry (absent ⇒ the
lookup `response.json()['data']` raises `KeyError`).  For
`quotes/latest` the entry is a dict keyed by symbol and the code
iterates `data.values()` in insertion order; for `listings/latest` it
is an array; both are a `List RawToken` here. -/
structure Payload where
  data : Option (List RawToken)
deriving DecidableEq

/-- The normalized record built by `get_token_data` (lines 70-79);
field `change7d` is the dict entry `'7d_change'`, and so on. -/
structure NormalizedToken where
  symbol : String
  name : String
  rank : Int
  price : ℚ
  change7d : ℚ
  change30d : ℚ
  change90d : ℚ
  change1y : Option ℚ
deriving DecidableEq

/-- The record built for best/worst performers (lines 117-125 and
128-136); it has no 1-year field. -/
structure PerfToken where
  symbol : String
  name : String
  rank : Int
  price : ℚ
  change7d : ℚ
  change30d : ℚ
  change90d : ℚ
deriving DecidableEq

/-- The `{'best': ..., 'worst': ...}` dict returned by
`get_top_performers` (line 138). -/
structure PerfOut where
  best : List PerfToken
  worst : List PerfToken
deriving DecidableEq

/-- A Python exception escaping `get_token_data`:
`valueErrorInvalidKey` is the `ValueError` raised at line 45 (caught
by neither `except` clause of lines 81-86); `attributeErrorNoneJson`
is the `AttributeError` raised at line 69 when `_make_api_request`
returned `None` and the code calls `.json()` on it. -/
inductive PyExn where
  | valueErrorInvalidKey
  | attributeErrorNoneJson
deriving DecidableEq

/-- Observable behaviour of a Python call: a returned value or an
escaped exception. -/
inductive PyOutcome (α : Type) where
  | ret (a : α) : PyOutcome α
  | exn (e : PyExn) : PyOutcome α
deriving DecidableEq

/-- The list-comprehension mapping: `some` of the mapped list if `f`
succeeds on every element, `none` as soon as one element fails (a
raised `KeyError` aborts the whole comprehension). -/
def mapOption {α β : Type} (f : α → Option β) : List α → Option (List β)
  | [] => some []
  | x :: xs =>
    match f x, mapOption f xs with
    | some y, some ys => some (y :: ys)
    | _, _ => none

/-- The per-token dict built by `get_token_data` (lines 70-79): every
field except the 1-year change is a mandatory `[...]` lookup
(`KeyError`, i.e. `none`, if absent), while `'1y_change'` uses
`.get('percent_change_1y', None)`. -/
def normalizeToken (t : RawToken) : Option NormalizedToken := do
  let symbol ← t.symbol
  let name ← t.name
  let rank ← t.cmc_rank
  let q ← t.quoteUSD
  let price ← q.price
  let d7 ← q.percent_change_7d
  let d30 ← q.percent_change_30d
  let d90 ← q.percent_change_90d
  pure ⟨symbol, name, rank, price, d7, d30, d90, q.percent_change_1y⟩

/-- All fields that `get_token_data` reads with a mandatory lookup are
present (the optional 1-year change is deliberately not required). -/
def wfToken (t : RawToken) : Bool :=
  t.symbol.isSome && t.name.isSome && t.cmc_rank.isSome &&
    (match t.quoteUSD with
     | some q =>
       q.price.isSome && q.percent_change_7d.isSome &&
         q.percent_change_30d.isSome && q.percent_change_90d.isSome
     | none => false)

/-- `get_token_data` (lines 59-86) applied to the result of its
`_make_api_request` call.  The `except` clauses catch
`RequestException` (so the re-raised transient error of the exhausted
retry loop becomes `None`) and `KeyError` (so a missing `'data'` key
or a missing mandatory token field becomes `None`); the `ValueError`
of the auth short-circuit and the `AttributeError` from calling
`.json()` on a `None` response escape. -/
def getTokenDataFrom (r : ApiResult Payload) : PyOutcome (Option (List NormalizedToken)) :=
  match r with
  | .authRaise => .exn .valueErrorInvalidKey
  | .exhaustedRaise => .ret none
  | .noneResult => .exn .attributeErrorNoneJson
  | .success _ _ p =>
    match p.data with
    | none => .ret none
    | some toks =>
      match mapOption normalizeToken toks with
      | some ts => .ret (some ts)
      | none => .ret none

/-- The full `get_token_data` pipeline: run the retry loop on the
attempt outcomes, then map the payload. -/
def getTokenData (out : Nat → HttpOutcome Payload) (jit : Nat → ℚ) :
    PyOutcome (Option (List NormalizedToken)) :=
  getTokenDataFrom (makeApiRequest out jit).result

/-! ## `get_top_performers` (lines 88-142) -/

/-- Sort key of line 107: `lambda x: x['cmc_rank']`.  The default `0`
is never observed: the code only sorts after the key has been checked
present on every element (a missing key raises `KeyError` while the
keys are computed, and the `except Exception` clause returns `None`). -/
def rankOf (t : RawToken) : Int :=
  (t.cmc_rank).getD 0

/-- Sort key of line 112: `lambda x: x['quote']['USD']['percent_change_7d']`;
same remark about the default as for `rankOf`. -/
def change7dOf (t : RawToken) : ℚ :=
  match t.quoteUSD with
  | some q => q.percent_change_7d.getD 0
  | none => 0

/-- The rank key of line 107 is present. -/
def hasRank (t : RawToken) : Bool :=
  t.cmc_rank.isSome

/-- The 7-day-change key of line 112 is present. -/
def has7d (t : RawToken) : Bool :=
  match t.quoteUSD with
  | some q => q.percent_change_7d.isSome
  | none => false

/-- Ordering used by `sorted(..., key=lambda x: x['cmc_rank'])`. -/
def rankLe (a b : RawToken) : Prop :=
  rankOf a ≤ rankOf b

instance : DecidableRel rankLe :=
  fun a b => inferInstanceAs (Decidable (rankOf a ≤ rankOf b))

/-- Ordering used by `sorted(..., key=..., reverse=True)` on the 7-day
change: `a` may come before `b` iff `a`'s change is at least `b`'s. -/
def perfGe (a b : RawToken) : Prop :=
  change7dOf b ≤ change7dOf a

instance : DecidableRel perfGe :=
  fun a b => inferInstanceAs (Decidable (change7dOf b ≤ change7dOf a))

instance : IsTotal RawToken perfGe :=
  ⟨fun a b => le_total (change7dOf b) (change7dOf a)⟩

instance : IsTrans RawToken perfGe :=
  ⟨fun _ _ _ hab hbc => le_trans hbc hab⟩

/-- Line 107: `top_100 = sorted(data[:100], key=lambda x: x['cmc_rank'])`
applied to the already-truncated list. -/
def sortByRank (ts : List RawToken) : List RawToken :=
  ts.insertionSort rankLe

/-- Lines 110-114: the rank-sorted list re-sorted by 7-day change,
descending (`reverse=True`), stably. -/
def sortByPerf (ts : List RawToken) : List RawToken :=
  (sortByRank ts).insertionSort perfGe

/-- Python's `xs[-k:]` slice: the last `k` elements — except that
`-0 == 0`, so `k = 0` yields the whole list, not the empty one. -/
def pySliceLast {α : Type} (k : Nat) (xs : List α) : List α :=
  if k = 0 then xs else xs.drop (xs.length - k)

/-- The per-token dict of lines 117-125 / 128-136: seven mandatory
lookups, no 1-year-change field. -/
def perfOfToken (t : RawToken) : Option PerfToken := do
  let symbol ← t.symbol
  let name ← t.name
  let rank ← t.cmc_rank
  let q ← t.quoteUSD
  let price ← q.price
  let d7 ← q.percent_change_7d
  let d30 ← q.percent_change_30d
  let d90 ← q.percent_change_90d
  pure ⟨symbol, name, rank, price, d7, d30, d90⟩

/-- Lines 107-138 applied to the truncated listing `data[:100]`.
CPython's `sorted(key=f)` first computes `f` on every element (so a
missing sort key raises `KeyError` before any comparison); any raised
exception is caught by the `except Exception` clause of line 140,
which returns `None`.  Python builds `best` (line 117) before `worst`
(line 128); if either comprehension raises, the result is `None`. -/
def processListing100 (top : Nat) (t100 : List RawToken) : Option PerfOut :=
  if t100.all hasRank then
    if (sortByRank t100).all has7d then
      match mapOption perfOfToken ((sortByPerf t100).take top),
          mapOption perfOfToken (pySliceLast top (sortByPerf t100)) with
      | some best, some worst => some ⟨best, worst⟩
      | _, _ => none
    else none
  else none

/-- `get_top_performers` (lines 88-142) applied to the result of its
`_make_api_request` call.  Every failure — the escaped auth
`ValueError`, the re-raised transient error, a `None` response
(line 101), a missing `'data'` key, a missing token field — ends in
`None`: the `except Exception` clause of line 140 catches everything
that the explicit `None` check of line 101 does not handle first. -/
def getTopPerformersFrom (top : Nat) (r : ApiResult Payload) : Option PerfOut :=
  match r with
  | .success _ _ p =>
    match p.data with
    | none => none
    | some ts => processListing100 top (ts.take 100)
  | .noneResult => none
  | .authRaise => none
  | .exhaustedRaise => none

/-- The full `get_top_performers` pipeline: run the retry loop on the
attempt outcomes, then rank the payload.  The `limit` request
parameter only shapes the HTTP query (line 93); it does not appear in
the processing, which always truncates at 100 (line 107). -/
def getTopPerformers (top : Nat) (out : Nat → HttpOutcome Payload) (jit : Nat → ℚ) :
    Option PerfOut :=
  getTopPerformersFrom top (makeApiRequest out jit).result

/-! ## Helper lemmas -/

/-- Splitting a shifted `List.range` map at its head. -/
theorem range_map_shift {β : Type} (f : Nat → β) (a k : Nat) :
    (List.range (a + 1)).map (fun i => f (k + i)) =
      f k :: (List.range a).map (fun i => f (k + 1 + i)) := by
  rw [List.range_succ_eq_map, List.map_cons, List.map_map]
  refine congrArg₂ _ (by rw [Nat.add_zero]) ?_
  apply List.map_congr_left
  intro i _
  simp only [Function.comp_apply]
  exact congrArg f (by omega)

/-- One non-final loop iteration on a raised network error: retry. -/
theorem runLoop_err_step {α : Type} (out : Nat → HttpOutcome α) (jit : Nat → ℚ)
    (base : ℚ) (r attempt : Nat) (hout : out attempt = .err) (hr : r ≠ 0) :
    runLoop out jit base (r + 1) attempt =
      ⟨(runLoop out jit base r (attempt + 1)).result,
        (runLoop out jit base r (attempt + 1)).calls + 1,
        backoffDelay base attempt (jit attempt) ::
          (runLoop out jit base r (attempt + 1)).sleeps⟩ := by
  simp only [runLoop, hout, if_neg hr]

/-- One non-final loop iteration on a retryable status code: retry. -/
theorem runLoop_status_step {α : Type} (out : Nat → HttpOutcome α) (jit : Nat → ℚ)
    (base : ℚ) (r attempt : Nat) (code : Nat) (msg : Option String) (p : α)
    (hout : out attempt = .resp code msg p) (hc : code ≠ 401)
    (hrange : 400 ≤ code ∧ code < 600) (hr : r ≠ 0) :
    runLoop out jit base (r + 1) attempt =
      ⟨(runLoop out jit base r (attempt + 1)).result,
        (runLoop out jit base r (attempt + 1)).calls + 1,
        backoffDelay base attempt (jit attempt) ::
          (runLoop out jit base r (attempt + 1)).sleeps⟩ := by
  simp only [runLoop, hout, if_neg hc, if_pos hrange, if_neg hr]

/-- If every one of `r + 1` consecutive outcomes starting at `attempt`
is transient, the loop performs all of them, sleeps the exponential
backoff between consecutive attempts (not after the last), and
re-raises the final transient error. -/
theorem runLoop_transient {α : Type} (out : Nat → HttpOutcome α) (jit : Nat → ℚ)
    (base : ℚ) :
    ∀ (r attempt : Nat),
      (∀ i, i ≤ r → isTransientB (out (attempt + i)) = true) →
      runLoop out jit base (r + 1) attempt =
        ⟨.exhaustedRaise, r + 1,
          (List.range r).map (fun i => backoffDelay base (attempt + i) (jit (attempt + i)))⟩ := by
  intro r
  induction r with
  | zero =>
    intro attempt h
    have h0 := h 0 (by omega)
    rw [Nat.add_zero] at h0
    cases hout : out attempt with
    | err => simp [runLoop, hout]
    | resp code msg p =>
      rw [hout] at h0
      simp only [isTransientB, decide_eq_true_eq] at h0
      simp [runLoop, hout, h0.1, h0.2.1, h0.2.2]
  | succ r ih =>
    intro attempt h
    have h0 := h 0 (by omega)
    rw [Nat.add_zero] at h0
    have hpre : ∀ i, i ≤ r → isTransientB (out (attempt + 1 + i)) = true := by
      intro i hi
      have := h (i + 1) (by omega)
      rwa [show attempt + (i + 1) = attempt + 1 + i by omega] at this
    have hrest := ih (attempt + 1) hpre
    have hlist :
        (List.range (r + 1)).map
            (fun i => backoffDelay base (attempt + i) (jit (attempt + i))) =
          backoffDelay base attempt (jit attempt) ::
            (List.range r).map (fun i => backoffDelay base (attempt + 1 + i) (jit (attempt + 1 + i))) :=
      range_map_shift (fun n => backoffDelay base n (jit n)) r attempt
    cases hout : out attempt with
    | err =>
      rw [runLoop_err_step out jit base (r + 1) attempt hout (Nat.succ_ne_zero r),
        hrest, hlist]
    | resp code msg p =>
      rw [hout] at h0
      simp only [isTransientB, decide_eq_true_eq] at h0
      rw [runLoop_status_step out jit base (r + 1) attempt code msg p hout h0.1
        (And.intro h0.2.1 h0.2.2) (Nat.succ_ne_zero r), hrest, hlist]

/-- If the outcomes before attempt `attempt + a` are transient and the
outcome at `attempt + a` is the fatal 401, the loop stops there with
the escaped `ValueError`, having made `a + 1` calls and performed only
the `a` backoff sleeps that preceded the fatal attempt. -/
theorem runLoop_auth {α : Type} (out : Nat → HttpOutcome α) (jit : Nat → ℚ)
    (base : ℚ) :
    ∀ (a r attempt : Nat),
      (∀ i, i < a → isTransientB (out (attempt + i)) = true) →
      isAuthB (out (attempt + a)) = true →
      a < r →
      runLoop out jit base r attempt =
        ⟨.authRaise, a + 1,
          (List.range a).map (fun i => backoffDelay base (attempt + i) (jit (attempt + i)))⟩ := by
  intro a
  induction a with
  | zero =>
    intro r attempt _ hauth hr
    obtain ⟨r', rfl⟩ : ∃ r', r = r' + 1 := ⟨r - 1, by omega⟩
    rw [Nat.add_zero] at hauth
    cases hout : out attempt with
    | err => rw [hout] at hauth; simp [isAuthB] at hauth
    | resp code msg p =>
      rw [hout] at hauth
      simp only [isAuthB, Bool.and_eq_true, beq_iff_eq] at hauth
      simp [runLoop, hout, hauth.1, hauth.2]
  | succ a ih =>
    intro r attempt hpre hauth hr
    obtain ⟨r', rfl⟩ : ∃ r', r = r' + 1 := ⟨r - 1, by omega⟩
    have h0 := hpre 0 (by omega)
    rw [Nat.add_zero] at h0
    have hpre' : ∀ i, i < a → isTransientB (out (attempt + 1 + i)) = true := by
      intro i hi
      have := hpre (i + 1) (by omega)
      rwa [show attempt + (i + 1) = attempt + 1 + i by omega] at this
    have hauth' : isAuthB (out (attempt + 1 + a)) = true := by
      rwa [show attempt + (a + 1) = attempt + 1 + a by omega] at hauth
    have hrest := ih r' (attempt + 1) hpre' hauth' (by omega)
    have hr0 : r' ≠ 0 := by omega
    have hlist :
        (List.range (a + 1)).map
            (fun i => backoffDelay base (attempt + i) (jit (attempt + i))) =
          backoffDelay base attempt (jit attempt) ::
            (List.range a).map (fun i => backoffDelay base (attempt + 1 + i) (jit (attempt + 1 + i))) :=
      range_map_shift (fun n => backoffDelay base n (jit n)) a attempt
    obtain ⟨r'', rfl⟩ : ∃ r'', r' = r'' + 1 := ⟨r' - 1, by omega⟩
    cases hout : out attempt with
    | err =>
      rw [runLoop_err_step out jit base (r'' + 1) attempt hout (Nat.succ_ne_zero r''),
        hrest, hlist]
    | resp code msg p =>
      rw [hout] at h0
      simp only [isTransientB, decide_eq_true_eq] at h0
      rw [runLoop_status_step out jit base (r'' + 1) attempt code msg p hout h0.1
        (And.intro h0.2.1 h0.2.2) (Nat.succ_ne_zero r''), hrest, hlist]

/-- `mapOption` fails as soon as one element fails. -/
theorem mapOption_eq_none {α β : Type} (f : α → Option β) :
    ∀ (xs : List α) (x : α), x ∈ xs → f x = none → mapOption f xs = none := by
  intro xs
  induction xs with
  | nil => intro x hx; cases hx
  | cons a as ih =>
    intro x hx hfx
    rcases List.mem_cons.mp hx with rfl | hx'
    · simp [mapOption, hfx]
    · rw [mapOption, ih x hx' hfx]
      cases f a <;> rfl

/-- `mapOption` succeeds when `f` succeeds on every element, with the
expected length, and every input element has its image in the output. -/
theorem mapOption_some_of_all {α β : Type} (f : α → Option β) :
    ∀ (xs : List α), (∀ x ∈ xs, (f x).isSome = true) →
      ∃ ys, mapOption f xs = some ys ∧ ys.length = xs.length := by
  intro xs
  induction xs with
  | nil => intro _; exact ⟨[], rfl, rfl⟩
  | cons a as ih =>
    intro h
    obtain ⟨ys, hys, hlen⟩ := ih (fun x hx => h x (List.mem_cons_of_mem a hx))
    obtain ⟨y, hy⟩ := Option.isSome_iff_exists.mp (h a (List.mem_cons_self a as))
    exact ⟨y :: ys, by simp [mapOption, hy, hys], by simp [hlen]⟩

/-- Every element of a successfully mapped list has its image in the
output list. -/
theorem mapOption_mem_some {α β : Type} (f : α → Option β) :
    ∀ (xs : List α) (ys : List β), mapOption f xs = some ys →
      ∀ x ∈ xs, ∃ y ∈ ys, f x = some y := by
  intro xs
  induction xs with
  | nil => intro ys _ x hx; cases hx
  | cons a as ih =>
    intro ys h x hx
    rw [mapOption] at h
    cases hfa : f a with
    | none => rw [hfa] at h; cases h
    | some y =>
      rw [hfa] at h
      cases hrest : mapOption f as with
      | none => rw [hrest] at h; cases h
      | some ys' =>
        rw [hrest] at h
        obtain rfl : y :: ys' = ys := by injection h
        rcases List.mem_cons.mp hx with rfl | hx'
        · exact ⟨y, List.mem_cons_self y ys', hfa⟩
        · obtain ⟨y', hm, he⟩ := ih ys' hrest x hx'
          exact ⟨y', List.mem_cons_of_mem y hm, he⟩

/-- `normalizeToken` succeeds exactly on well-formed tokens. -/
theorem normalizeToken_isSome (t : RawToken) :
    (normalizeToken t).isSome = wfToken t := by
  rcases t with ⟨s, n, r, q⟩
  rcases q with _ | ⟨p, d7, d30, d90, d1⟩
  · cases s <;> cases n <;> cases r <;> rfl
  · cases s <;> cases n <;> cases r <;> cases p <;> cases d7 <;> cases d30 <;>
      cases d90 <;> rfl

/-- `perfOfToken` succeeds exactly on well-formed tokens. -/
theorem perfOfToken_isSome (t : RawToken) :
    (perfOfToken t).isSome = wfToken t := by
  rcases t with ⟨s, n, r, q⟩
  rcases q with _ | ⟨p, d7, d30, d90, d1⟩
  · cases s <;> cases n <;> cases r <;> rfl
  · cases s <;> cases n <;> cases r <;> cases p <;> cases d7 <;> cases d30 <;>
      cases d90 <;> rfl

/-- A well-formed token has its rank sort key. -/
theorem wf_hasRank (t : RawToken) (h : wfToken t = true) : hasRank t = true := by
  rcases t with ⟨s, n, r, q⟩
  rcases q with _ | q
  · simp [wfToken] at h
  · simp only [wfToken, Bool.and_eq_true] at h
    exact h.1.2

/-- A well-formed token has its 7-day-change sort key. -/
theorem wf_has7d (t : RawToken) (h : wfToken t = true) : has7d t = true := by
  rcases t with ⟨s, n, r, q⟩
  rcases q with _ | q
  · simp [wfToken] at h
  · simp only [wfToken, Bool.and_eq_true] at h
    exact h.2.1.1.2

/-! ## Claims -/

/-- C1: if an attempt of the request pipeline receives an HTTP 401
response whose body contains the invalid-credential indicator
("Invalid API key"), the pipeline terminates on that attempt with the
fatal auth error (the escaped `ValueError`), performing no further
attempts and no backoff sleep after that attempt, regardless of how
many of the `max_retries = 5` attempts remain. -/
theorem C1_auth_short_circuit {α : Type} (out : Nat → HttpOutcome α) (jit : Nat → ℚ)
    (a : Nat) (ha : a < 5)
    (hpre : ∀ i, i < a → isTransientB (out i) = true)
    (hauth : isAuthB (out a) = true) :
    makeApiRequest out jit =
      ⟨.authRaise, a + 1, (List.range a).map (fun i => backoffDelay 1 i (jit i))⟩ := by
  have h := runLoop_auth out jit 1 a 5 0
    (by intro i hi; simpa using hpre i hi) (by simpa using hauth) ha
  simpa [makeApiRequest] using h

/-- Witness for C1 at a concrete input: two transient attempts, then
the fatal 401. -/
theorem C1_auth_short_circuit_witness :
    makeApiRequest
        (fun i => if i < 2 then (HttpOutcome.err : HttpOutcome Payload)
          else HttpOutcome.resp 401 (some "Invalid API key") (Payload.mk none))
        (fun _ => (0 : ℚ)) =
      ⟨ApiResult.authRaise, 3, (List.range 2).map (fun i => backoffDelay 1 i 0)⟩ :=
  C1_auth_short_circuit _ _ 2 (by decide) (by decide) (by decide)

/-- C2 counterexample: a 304 response is a non-2xx status other than
401, which the claim counts as a transient failure; yet on a constant
stream of 304 responses the pipeline performs exactly one HTTP call
and returns the response as a success rather than exhausting the five
attempts, because `raise_for_status` raises only for statuses
400-599. -/
theorem C2_counterexample :
    ¬ (200 ≤ 304 ∧ 304 < 300) ∧ (304 : Nat) ≠ 401 ∧
    (makeApiRequest (fun _ => HttpOutcome.resp 304 none (Payload.mk none))
        (fun _ => (0 : ℚ))).calls = 1 ∧
    (makeApiRequest (fun _ => HttpOutcome.resp 304 none (Payload.mk none))
        (fun _ => (0 : ℚ))).result = ApiResult.success 304 none (Payload.mk none) :=
  ⟨by omega, by omega, rfl, rfl⟩

/-- C2 (amended): when all of the first `max_retries = 5` outcomes are
transient in the code's sense — a network-level failure or a status in
400-599 other than the handled 401 cases — the pipeline performs
exactly 5 HTTP calls, re-raises the final transient error, and sleeps
a backoff delay only between attempts (4 sleeps), not after the last
one. -/
theorem C2_exhausted_amended {α : Type} (out : Nat → HttpOutcome α) (jit : Nat → ℚ)
    (h : ∀ i, i < 5 → isTransientB (out i) = true) :
    makeApiRequest out jit =
      ⟨.exhaustedRaise, 5, (List.range 4).map (fun i => backoffDelay 1 i (jit i))⟩ := by
  have hr := runLoop_transient out jit 1 4 0
    (by intro i hi; simpa using h i (by omega))
  simpa [makeApiRequest] using hr

/-- Witness for the amended C2 at a concrete input: five network
errors. -/
theorem C2_exhausted_amended_witness :
    makeApiRequest (fun _ => (HttpOutcome.err : HttpOutcome Payload)) (fun _ => (0 : ℚ)) =
      ⟨ApiResult.exhaustedRaise, 5, (List.range 4).map (fun i => backoffDelay 1 i 0)⟩ :=
  C2_exhausted_amended _ _ (by decide)

/-- C6: for a positive budget of `rate` requests per minute, the
permit time of a second `_rate_limit_check` call is at least `60/rate`
after the previously permitted request; and with budget 30/min, three
sequential calls end at least 4 seconds (two 2-second intervals) after
the first call's wall-clock time.  The operation always returns: the
model is a total function. -/
theorem C6_rate_limit (rate last now : ℚ) (_hrate : 0 < rate) :
    (∀ t2 : ℚ,
      (rateLimitCheck rate last now).2 + 60 / rate ≤
        (rateLimitCheck rate (rateLimitCheck rate last now).2 t2).2) ∧
    (∀ t2 t3 : ℚ,
      now + 4 ≤
        (rateLimitCheck 30 (rateLimitCheck 30 (rateLimitCheck 30 last now).2 t2).2 t3).2) := by
  constructor
  · intro t2
    have h := rateLimitCheck_lower rate (rateLimitCheck rate last now).2 t2
    linarith
  · intro t2 t3
    have h1 := rateLimitCheck_ge_now 30 last now
    have h2 := rateLimitCheck_lower 30 (rateLimitCheck 30 last now).2 t2
    have h3 :=
      rateLimitCheck_lower 30 (rateLimitCheck 30 (rateLimitCheck 30 last now).2 t2).2 t3
    have h30 : (60 : ℚ) / 30 = 2 := by norm_num
    linarith

/-- Witness for C6 at budget 30, `last_request_time` 0, first call at
time 100, later calls at times 101 and 102. -/
theorem C6_rate_limit_witness :
    (rateLimitCheck 30 0 100).2 + 60 / 30 ≤
      (rateLimitCheck 30 (rateLimitCheck 30 0 100).2 101).2 ∧
    (100 : ℚ) + 4 ≤
      (rateLimitCheck 30 (rateLimitCheck 30 (rateLimitCheck 30 0 100).2 101).2 102).2 :=
  ⟨(C6_rate_limit 30 0 100 (by norm_num)).1 101,
   (C6_rate_limit 30 0 100 (by norm_num)).2 101 102⟩

/-- C7: for every attempt index `a` and every jitter draw in
`[0, jitter_max)`, the backoff delay equals
`base_delay * 2^a + jitter` and so lies in
`[base_delay * 2^a, base_delay * 2^a + jitter_max)`; and in a full
retried run the pipeline's sleeps are exactly the delays
`backoffDelay 1 i (jit i)` for `i = 0..3`, each using its own attempt's
jitter draw. -/
theorem C7_backoff_delay (base jmax j : ℚ) (a : Nat) (h0 : 0 ≤ j) (h1 : j < jmax) :
    (base * 2 ^ a ≤ backoffDelay base a j ∧
      backoffDelay base a j < base * 2 ^ a + jmax) ∧
    ∀ (out : Nat → HttpOutcome Payload) (jit : Nat → ℚ),
      (∀ i, i < 5 → isTransientB (out i) = true) →
      (makeApiRequest out jit).sleeps =
        (List.range 4).map (fun i => backoffDelay 1 i (jit i)) := by
  refine ⟨⟨?_, ?_⟩, ?_⟩
  · simp only [backoffDelay]
    linarith
  · simp only [backoffDelay]
    linarith
  · intro out jit h
    have hr := runLoop_transient out jit 1 4 0
      (by intro i hi; simpa using h i (by omega))
    simpa [makeApiRequest] using congrArg RunTrace.sleeps hr

/-- Witness for C7 at `base_delay = 1`, `jitter_max = 1`, jitter 1/2,
attempt index 3, and a concrete all-transient run. -/
theorem C7_backoff_delay_witness :
    ((1 : ℚ) * 2 ^ 3 ≤ backoffDelay 1 3 (1 / 2) ∧
      backoffDelay 1 3 (1 / 2) < 1 * 2 ^ 3 + 1) ∧
    (makeApiRequest (fun _ => (HttpOutcome.err : HttpOutcome Payload))
        (fun _ => (1 / 2 : ℚ))).sleeps =
      (List.range 4).map (fun i => backoffDelay 1 i (1 / 2)) :=
  ⟨(C7_backoff_delay 1 1 (1 / 2) 3 (by norm_num) (by norm_num)).1,
   (C7_backoff_delay 1 1 (1 / 2) 3 (by norm_num) (by norm_num)).2 _ _ (by decide)⟩

/-- One loop iteration on a 401 whose message lacks the indicator:
`return None` immediately (line 46), with one call and no sleep. -/
theorem runLoop_401_none {α : Type} (out : Nat → HttpOutcome α) (jit : Nat → ℚ)
    (base : ℚ) (r attempt : Nat) (msg : String) (p : α)
    (hout : out attempt = .resp 401 (some msg) p)
    (hmsg : containsSubstr "Invalid API key" msg = false) :
    runLoop out jit base (r + 1) attempt = ⟨.noneResult, 1, []⟩ := by
  simp [runLoop, hout, hmsg]

/-- C4 counterexample: on a 401 carrying the invalid-credential
indicator the pipeline ends with the fatal auth error, yet
`get_top_performers` turns it into the untyped absent value `None`
instead of a typed result; the exhausted-retries error is likewise
turned into `None` by `get_token_data`. -/
theorem C4_counterexample :
    (makeApiRequest
        (fun _ => HttpOutcome.resp 401 (some "Invalid API key") (Payload.mk none))
        (fun _ => (0 : ℚ))).result = ApiResult.authRaise ∧
    getTopPerformers 5
        (fun _ => HttpOutcome.resp 401 (some "Invalid API key") (Payload.mk none))
        (fun _ => (0 : ℚ)) = none ∧
    getTokenDataFrom (ApiResult.exhaustedRaise : ApiResult Payload) = PyOutcome.ret none :=
  ⟨rfl, rfl, rfl⟩

/-- C4 (amended): no terminal failure is returned as a typed result.
`get_token_data` lets the fatal auth `ValueError` escape as an
exception, turns the exhausted-retries error into `None`, and raises
`AttributeError` when the pipeline returned `None`; `get_top_performers`
turns every one of these, the fatal auth error included, into the
untyped absent value `None`. -/
theorem C4_untyped_errors_amended (r : ApiResult Payload) :
    (r = ApiResult.authRaise →
      getTokenDataFrom r = PyOutcome.exn PyExn.valueErrorInvalidKey ∧
      getTopPerformersFrom 5 r = none) ∧
    (r = ApiResult.exhaustedRaise →
      getTokenDataFrom r = PyOutcome.ret none ∧
      getTopPerformersFrom 5 r = none) ∧
    (r = ApiResult.noneResult →
      getTokenDataFrom r = PyOutcome.exn PyExn.attributeErrorNoneJson ∧
      getTopPerformersFrom 5 r = none) := by
  refine ⟨?_, ?_, ?_⟩ <;> rintro rfl <;> exact ⟨rfl, rfl⟩

/-- Witness for the amended C4 at the fatal auth result. -/
theorem C4_untyped_errors_amended_witness :
    getTokenDataFrom (ApiResult.authRaise : ApiResult Payload) =
        PyOutcome.exn PyExn.valueErrorInvalidKey ∧
    getTopPerformersFrom 5 (ApiResult.authRaise : ApiResult Payload) = none :=
  (C4_untyped_errors_amended ApiResult.authRaise).1 rfl

/-- C5 counterexample: on a 401 whose body lacks the indicator the
pipeline does return immediately with one call, no retry and no
backoff — but the return value is a bare `None` that carries no
server-provided message (it is only printed), and `get_token_data`
then raises an uncaught `AttributeError` by calling `.json()` on that
`None`, so an exception does reach the caller. -/
theorem C5_counterexample :
    makeApiRequest
        (fun _ => HttpOutcome.resp 401 (some "API key missing") (Payload.mk none))
        (fun _ => (0 : ℚ)) = ⟨ApiResult.noneResult, 1, []⟩ ∧
    getTokenData
        (fun _ => HttpOutcome.resp 401 (some "API key missing") (Payload.mk none))
        (fun _ => (0 : ℚ)) = PyOutcome.exn PyExn.attributeErrorNoneJson :=
  ⟨rfl, rfl⟩

/-- C5 (amended): a first-attempt 401 without the indicator makes the
pipeline return `None` immediately — one HTTP call, no retry, no
backoff sleep, no exception from `_make_api_request` itself, but also
no structured failure value (the server message is only printed);
`get_token_data` then raises an uncaught `AttributeError` on the
`None`, while `get_top_performers` checks for `None` and returns
`None`. -/
theorem C5_401_other_amended (msg : String) (p : Payload)
    (out : Nat → HttpOutcome Payload) (jit : Nat → ℚ)
    (hout : out 0 = HttpOutcome.resp 401 (some msg) p)
    (hmsg : containsSubstr "Invalid API key" msg = false) :
    makeApiRequest out jit = ⟨ApiResult.noneResult, 1, []⟩ ∧
    getTokenData out jit = PyOutcome.exn PyExn.attributeErrorNoneJson ∧
    getTopPerformers 5 out jit = none := by
  have h : makeApiRequest out jit = ⟨ApiResult.noneResult, 1, []⟩ :=
    runLoop_401_none out jit 1 4 0 msg p hout hmsg
  refine ⟨h, ?_, ?_⟩
  · simp [getTokenData, h, getTokenDataFrom]
  · simp [getTopPerformers, h, getTopPerformersFrom]

/-- Witness for the amended C5 at a concrete 401 message. -/
theorem C5_401_other_amended_witness :
    makeApiRequest (fun _ => HttpOutcome.resp 401 (some "x") (Payload.mk none))
        (fun _ => (0 : ℚ)) = ⟨ApiResult.noneResult, 1, []⟩ ∧
    getTokenData (fun _ => HttpOutcome.resp 401 (some "x") (Payload.mk none))
        (fun _ => (0 : ℚ)) = PyOutcome.exn PyExn.attributeErrorNoneJson ∧
    getTopPerformers 5 (fun _ => HttpOutcome.resp 401 (some "x") (Payload.mk none))
        (fun _ => (0 : ℚ)) = none :=
  C5_401_other_amended "x" (Payload.mk none) _ _ rfl (by decide)

/-- C8: a batch payload in which at least one token record is missing
a required field makes `get_token_data` fail for the whole batch —
the `KeyError` aborts the comprehension and the `except` clause
returns `None` — and no partial list of normalized tokens is ever
returned. -/
theorem C8_batch_abort (c : Nat) (m : Option String) (toks : List RawToken)
    (h : ∃ t ∈ toks, wfToken t = false) :
    getTokenDataFrom (ApiResult.success c m (Payload.mk (some toks))) =
      PyOutcome.ret none ∧
    ∀ ts, getTokenDataFrom (ApiResult.success c m (Payload.mk (some toks))) ≠
      PyOutcome.ret (some ts) := by
  obtain ⟨t, ht, hwf⟩ := h
  have hs : (normalizeToken t).isSome = false := by rw [normalizeToken_isSome, hwf]
  have hnone : normalizeToken t = none :=
    Option.not_isSome_iff_eq_none.mp (by simp [hs])
  have hmap := mapOption_eq_none normalizeToken toks t ht hnone
  refine ⟨?_, ?_⟩
  · simp [getTokenDataFrom, hmap]
  · intro ts
    simp [getTokenDataFrom, hmap]

/-- Witness for C8 on a one-token batch whose record lacks `price`. -/
theorem C8_batch_abort_witness :
    getTokenDataFrom (ApiResult.success 200 none (Payload.mk (some
        [⟨some "BTC", some "Bitcoin", some 1, some ⟨none, some 2, some 3, some 4, none⟩⟩]))) =
      PyOutcome.ret none ∧
    getTokenDataFrom (ApiResult.success 200 none (Payload.mk (some
        [⟨some "BTC", some "Bitcoin", some 1, some ⟨none, some 2, some 3, some 4, none⟩⟩]))) ≠
      PyOutcome.ret (some []) :=
  ⟨(C8_batch_abort 200 none _ ⟨_, List.mem_cons_self _ _, by decide⟩).1,
   (C8_batch_abort 200 none _ ⟨_, List.mem_cons_self _ _, by decide⟩).2 []⟩

/-- C9: a token record whose optional 1-year-change field is absent is
normalized with `change1y = none` and all other fields mapped
normally; and a batch of well-formed records (well-formedness not
requiring the 1-year field) always succeeds, so the missing optional
field never causes the fetch to fail. -/
theorem C9_optional_1y :
    (∀ (sym nm : String) (rk : Int) (pr d7 d30 d90 : ℚ),
      normalizeToken ⟨some sym, some nm, some rk,
          some ⟨some pr, some d7, some d30, some d90, none⟩⟩ =
        some ⟨sym, nm, rk, pr, d7, d30, d90, none⟩) ∧
    (∀ (c : Nat) (m : Option String) (toks : List RawToken),
      (∀ t ∈ toks, wfToken t = true) →
      ∃ ts, getTokenDataFrom (ApiResult.success c m (Payload.mk (some toks))) =
          PyOutcome.ret (some ts) ∧ ts.length = toks.length) := by
  constructor
  · intro sym nm rk pr d7 d30 d90
    rfl
  · intro c m toks h
    obtain ⟨ts, hts, hlen⟩ := mapOption_some_of_all normalizeToken toks
      (fun t ht => by rw [normalizeToken_isSome]; exact h t ht)
    exact ⟨ts, by simp [getTokenDataFrom, hts], hlen⟩

/-- Witness for C9 on a concrete record lacking the 1-year change. -/
theorem C9_optional_1y_witness :
    normalizeToken ⟨some "BTC", some "Bitcoin", some 1,
        some ⟨some 50000, some 2, some 5, some 10, none⟩⟩ =
      some ⟨"BTC", "Bitcoin", 1, 50000, 2, 5, 10, none⟩ ∧
    ∃ ts, getTokenDataFrom (ApiResult.success 200 none (Payload.mk (some
        [⟨some "BTC", some "Bitcoin", some 1,
          some ⟨some 50000, some 2, some 5, some 10, none⟩⟩]))) =
        PyOutcome.ret (some ts) ∧ ts.length = 1 :=
  ⟨C9_optional_1y.1 "BTC" "Bitcoin" 1 50000 2 5 10,
   C9_optional_1y.2 200 none _ (by decide)⟩

/-- A successful `mapOption` preserves the length. -/
theorem mapOption_length {α β : Type} (f : α → Option β) :
    ∀ (xs : List α) (ys : List β), mapOption f xs = some ys →
      ys.length = xs.length := by
  intro xs
  induction xs with
  | nil =>
    intro ys h
    obtain rfl : ([] : List β) = ys := by injection h
    rfl
  | cons a as ih =>
    intro ys h
    rw [mapOption] at h
    cases hfa : f a with
    | none => rw [hfa] at h; cases h
    | some y =>
      rw [hfa] at h
      cases hrest : mapOption f as with
      | none => rw [hrest] at h; cases h
      | some ys' =>
        rw [hrest] at h
        obtain rfl : y :: ys' = ys := by injection h
        simp [ih ys' hrest]

/-- On an all-well-formed truncated listing, `processListing100`
succeeds, with `best` the mapped length-`top` prefix and `worst` the
mapped Python tail slice of the descending-sorted list. -/
theorem processListing100_spec (top : Nat) (t100 : List RawToken)
    (hwf : ∀ t ∈ t100, wfToken t = true) :
    ∃ best worst,
      processListing100 top t100 = some ⟨best, worst⟩ ∧
      mapOption perfOfToken ((sortByPerf t100).take top) = some best ∧
      mapOption perfOfToken (pySliceLast top (sortByPerf t100)) = some worst := by
  have hwfPerf : ∀ t ∈ sortByPerf t100, wfToken t = true := by
    intro t ht
    exact hwf t ((List.mem_insertionSort rankLe).mp ((List.mem_insertionSort perfGe).mp ht))
  have hallRank : t100.all hasRank = true :=
    List.all_eq_true.mpr (fun t ht => wf_hasRank t (hwf t ht))
  have hall7d : (sortByRank t100).all has7d = true :=
    List.all_eq_true.mpr
      (fun t ht => wf_has7d t (hwf t ((List.mem_insertionSort rankLe).mp ht)))
  obtain ⟨best, hbest⟩ :
      ∃ best, mapOption perfOfToken ((sortByPerf t100).take top) = some best := by
    obtain ⟨best, hbest, _⟩ := mapOption_some_of_all perfOfToken ((sortByPerf t100).take top)
      (fun t ht => by rw [perfOfToken_isSome]; exact hwfPerf t (List.take_subset top _ ht))
    exact ⟨best, hbest⟩
  obtain ⟨worst, hworst⟩ :
      ∃ worst, mapOption perfOfToken (pySliceLast top (sortByPerf t100)) = some worst := by
    obtain ⟨worst, hworst, _⟩ :=
      mapOption_some_of_all perfOfToken (pySliceLast top (sortByPerf t100))
        (fun t ht => by
          rw [perfOfToken_isSome]
          apply hwfPerf
          revert ht
          unfold pySliceLast
          split
          · exact fun ht => ht
          · exact fun ht => List.drop_subset _ _ ht)
    exact ⟨worst, hworst⟩
  exact ⟨best, worst,
    by simp [processListing100, hallRank, hall7d, hbest, hworst], hbest, hworst⟩

/-- Two sorted permutations of the same token list coincide when the
7-day-change sort keys are pairwise distinct: the descending-sorted
sequence of C3 is unique. -/
theorem sorted_perm_eq : ∀ (l₁ l₂ : List RawToken), l₁.Perm l₂ → List.Sorted perfGe l₁ →
    List.Sorted perfGe l₂ → (l₁.map change7dOf).Nodup → l₁ = l₂ := by
  intro l₁
  induction l₁ with
  | nil =>
    intro l₂ hperm _ _ _
    exact hperm.nil_eq
  | cons a t₁ ih =>
    intro l₂ hperm h₁ h₂ hnd
    cases l₂ with
    | nil =>
      have := hperm.length_eq
      simp at this
    | cons b t₂ =>
      rw [List.map_cons, List.nodup_cons] at hnd
      have hab : a = b := by
        by_contra hne
        have hamem : a ∈ b :: t₂ := hperm.mem_iff.mp (List.mem_cons_self a t₁)
        have hbmem : b ∈ a :: t₁ := hperm.mem_iff.mpr (List.mem_cons_self b t₂)
        have ha2 : a ∈ t₂ := by
          rcases List.mem_cons.mp hamem with h | h
          · exact absurd h hne
          · exact h
        have hb1 : b ∈ t₁ := by
          rcases List.mem_cons.mp hbmem with h | h
          · exact absurd h.symm hne
          · exact h
        have h₁ab : perfGe a b := List.rel_of_sorted_cons h₁ b hb1
        have h₂ba : perfGe b a := List.rel_of_sorted_cons h₂ a ha2
        have hkey : change7dOf a = change7dOf b := le_antisymm h₂ba h₁ab
        have hmem : change7dOf b ∈ t₁.map change7dOf := List.mem_map_of_mem change7dOf hb1
        rw [← hkey] at hmem
        exact hnd.1 hmem
      subst hab
      have htl : t₁.Perm t₂ := (List.perm_cons a).mp hperm
      exact congrArg (a :: ·) (ih t₂ htl h₁.of_cons h₂.of_cons hnd.2)

/-- C3: on a listing of well-formed tokens with pairwise-distinct
7-day changes, with `1 ≤ top_k ≤ n ≤ 100` tokens,
`get_top_performers` returns exactly `top_k` best tokens — the
length-`top_k` prefix of the 7-day-descending-sorted listing — and
exactly `top_k` worst tokens — the length-`top_k` tail slice of that
same descending-sorted sequence, kept in descending order (not
re-reversed to ascending worst-first).  Distinctness of the changes
makes the descending-sorted sequence `S` unique, so the prefix and
tail slice below are well-defined independently of the sort's
tie-breaking. -/
theorem C3_top_performers (c : Nat) (m : Option String) (toks : List RawToken) (k : Nat)
    (hwf : ∀ t ∈ toks, wfToken t = true)
    (hdist : (toks.map change7dOf).Nodup)
    (hk : 1 ≤ k) (hkn : k ≤ toks.length) (hn : toks.length ≤ 100) :
    ∃ S : List RawToken, S.Perm toks ∧ List.Sorted perfGe S ∧
      (∀ S' : List RawToken, S'.Perm toks → List.Sorted perfGe S' → S' = S) ∧
      ∃ pout, getTopPerformersFrom k (ApiResult.success c m (Payload.mk (some toks))) =
          some pout ∧
        pout.best.length = k ∧ pout.worst.length = k ∧
        mapOption perfOfToken (S.take k) = some pout.best ∧
        mapOption perfOfToken (S.drop (S.length - k)) = some pout.worst := by
  have htake : toks.take 100 = toks := List.take_of_length_le hn
  obtain ⟨best, worst, heq, hbest, hworst⟩ := processListing100_spec k toks hwf
  have hperm : (sortByPerf toks).Perm toks :=
    (List.perm_insertionSort perfGe (sortByRank toks)).trans
      (List.perm_insertionSort rankLe toks)
  have hsort : List.Sorted perfGe (sortByPerf toks) :=
    List.sorted_insertionSort perfGe (sortByRank toks)
  have hSlen : (sortByPerf toks).length = toks.length := hperm.length_eq
  have hslice : pySliceLast k (sortByPerf toks) =
      (sortByPerf toks).drop ((sortByPerf toks).length - k) := by
    unfold pySliceLast
    rw [if_neg (by omega)]
  rw [hslice] at hworst
  have hblen : best.length = k := by
    rw [mapOption_length perfOfToken _ _ hbest, List.length_take, hSlen,
      Nat.min_eq_left hkn]
  have hwlen : worst.length = k := by
    rw [mapOption_length perfOfToken _ _ hworst, List.length_drop]
    omega
  have huniq : ∀ S' : List RawToken, S'.Perm toks → List.Sorted perfGe S' →
      S' = sortByPerf toks := by
    intro S' hp hs
    exact sorted_perm_eq S' (sortByPerf toks) (hp.trans hperm.symm) hs hsort
      (((hp.map change7dOf).nodup_iff).mpr hdist)
  exact ⟨sortByPerf toks, hperm, hsort, huniq, ⟨best, worst⟩,
    by simp [getTopPerformersFrom, htake, heq], hblen, hwlen, hbest, hworst⟩

/-- Witness for C3 on a two-token listing with distinct 7-day changes
and `top_k = 1`. -/
theorem C3_top_performers_witness :
    ∃ S : List RawToken,
      S.Perm [⟨some "A", some "Alpha", some 1,
          some ⟨some 10, some 5, some 0, some 0, none⟩⟩,
        ⟨some "B", some "Beta", some 2,
          some ⟨some 20, some 1, some 0, some 0, none⟩⟩] ∧
      List.Sorted perfGe S ∧
      (∀ S' : List RawToken,
        S'.Perm [⟨some "A", some "Alpha", some 1,
            some ⟨some 10, some 5, some 0, some 0, none⟩⟩,
          ⟨some "B", some "Beta", some 2,
            some ⟨some 20, some 1, some 0, some 0, none⟩⟩] →
        List.Sorted perfGe S' → S' = S) ∧
      ∃ pout, getTopPerformersFrom 1 (ApiResult.success 200 none (Payload.mk (some
          [⟨some "A", some "Alpha", some 1,
            some ⟨some 10, some 5, some 0, some 0, none⟩⟩,
          ⟨some "B", some "Beta", some 2,
            some ⟨some 20, some 1, some 0, some 0, none⟩⟩]))) = some pout ∧
        pout.best.length = 1 ∧ pout.worst.length = 1 ∧
        mapOption perfOfToken (S.take 1) = some pout.best ∧
        mapOption perfOfToken (S.drop (S.length - 1)) = some pout.worst :=
  C3_top_performers 200 none _ 1 (by decide) (by decide) (by decide) (by decide)
    (by decide)

/-- C10: `get_top_performers` ranks over at most the first 100 entries
of the returned data array — entries appended beyond the first 100
never change the result, whatever the requested `limit` was — and on
an all-well-formed payload holding at least one but fewer than
`2 * top_k` entries, the best and worst groups share a token. -/
theorem C10_truncation_overlap :
    (∀ (top : Nat) (ts extra : List RawToken) (c : Nat) (m : Option String),
      ts.length = 100 →
      getTopPerformersFrom top (ApiResult.success c m (Payload.mk (some (ts ++ extra)))) =
        getTopPerformersFrom top (ApiResult.success c m (Payload.mk (some ts)))) ∧
    (∀ (top : Nat) (toks : List RawToken) (c : Nat) (m : Option String) (pout : PerfOut),
      1 ≤ top → 1 ≤ toks.length → toks.length < 2 * top →
      (∀ t ∈ toks, wfToken t = true) →
      getTopPerformersFrom top (ApiResult.success c m (Payload.mk (some toks))) =
        some pout →
      ∃ x, x ∈ pout.best ∧ x ∈ pout.worst) := by
  constructor
  · intro top ts extra c m hlen
    have h1 : (ts ++ extra).take 100 = ts.take 100 := by
      rw [← hlen, List.take_left, List.take_length]
    simp [getTopPerformersFrom, h1]
  · intro top toks c m pout htop hlen h2top hwf heq
    have hwf100 : ∀ t ∈ toks.take 100, wfToken t = true :=
      fun t ht => hwf t (List.take_subset 100 toks ht)
    obtain ⟨best, worst, hproc, hbest, hworst⟩ :=
      processListing100_spec top (toks.take 100) hwf100
    have heq' : processListing100 top (toks.take 100) = some pout := by
      simpa [getTopPerformersFrom] using heq
    rw [hproc] at heq'
    obtain rfl : (⟨best, worst⟩ : PerfOut) = pout := by injection heq'
    have hSlen : (sortByPerf (toks.take 100)).length = (toks.take 100).length :=
      ((List.perm_insertionSort perfGe (sortByRank (toks.take 100))).trans
        (List.perm_insertionSort rankLe (toks.take 100))).length_eq
    have hlen100 : (toks.take 100).length = min 100 toks.length := List.length_take 100 toks
    have hmin1 : 1 ≤ min 100 toks.length := le_min (by omega) hlen
    have hminlt : min 100 toks.length < 2 * top :=
      lt_of_le_of_lt (min_le_right 100 toks.length) h2top
    have hjS : (sortByPerf (toks.take 100)).length - top <
        (sortByPerf (toks.take 100)).length := by omega
    have hxt : (sortByPerf (toks.take 100)).get
        ⟨(sortByPerf (toks.take 100)).length - top, hjS⟩ ∈
        (sortByPerf (toks.take 100)).take top := by
      rw [List.get_eq_getElem]
      have ht1 : (sortByPerf (toks.take 100)).length - top <
          ((sortByPerf (toks.take 100)).take top).length := by
        simp [List.length_take]
        omega
      have ht2 := List.getElem_mem ht1
      rw [List.getElem_take] at ht2
      exact ht2
    have hxd : (sortByPerf (toks.take 100)).get
        ⟨(sortByPerf (toks.take 100)).length - top, hjS⟩ ∈
        pySliceLast top (sortByPerf (toks.take 100)) := by
      rw [List.get_eq_getElem]
      unfold pySliceLast
      rw [if_neg (by omega)]
      have hd1 : 0 < ((sortByPerf (toks.take 100)).drop
          ((sortByPerf (toks.take 100)).length - top)).length := by
        simp [List.length_drop]
        omega
      have hd2 := List.getElem_mem hd1
      rw [List.getElem_drop] at hd2
      simpa using hd2
    obtain ⟨y1, hy1m, hy1⟩ :=
      mapOption_mem_some perfOfToken ((sortByPerf (toks.take 100)).take top) best hbest _ hxt
    obtain ⟨y2, hy2m, hy2⟩ :=
      mapOption_mem_some perfOfToken (pySliceLast top (sortByPerf (toks.take 100))) worst
        hworst _ hxd
    obtain rfl : y1 = y2 := Option.some.inj (hy1.symm.trans hy2)
    exact ⟨y1, hy1m, hy2m⟩

/-- Witness for C10: appending one token after a 100-token listing
does not change the result, and on a one-token payload with
`top_k = 1` the best and worst groups share that token. -/
theorem C10_truncation_overlap_witness :
    getTopPerformersFrom 3 (ApiResult.success 200 none (Payload.mk (some
        (List.replicate 100 (⟨some "A", some "Alpha", some 1,
          some ⟨some 10, some 5, some 0, some 0, none⟩⟩ : RawToken) ++
          [⟨some "B", some "Beta", some 2,
            some ⟨some 20, some 1, some 0, some 0, none⟩⟩])))) =
      getTopPerformersFrom 3 (ApiResult.success 200 none (Payload.mk (some
        (List.replicate 100 (⟨some "A", some "Alpha", some 1,
          some ⟨some 10, some 5, some 0, some 0, none⟩⟩ : RawToken))))) ∧
    ∃ x, x ∈ (PerfOut.mk [⟨"A", "Alpha", 1, 10, 5, 0, 0⟩] [⟨"A", "Alpha", 1, 10, 5, 0, 0⟩]).best ∧
      x ∈ (PerfOut.mk [⟨"A", "Alpha", 1, 10, 5, 0, 0⟩] [⟨"A", "Alpha", 1, 10, 5, 0, 0⟩]).worst :=
  ⟨C10_truncation_overlap.1 3 _ _ 200 none (by simp),
   C10_truncation_overlap.2 1 [⟨some "A", some "Alpha", some 1,
       some ⟨some 10, some 5, some 0, some 0, none⟩⟩] 200 none
     (PerfOut.mk [⟨"A", "Alpha", 1, 10, 5, 0, 0⟩] [⟨"A", "Alpha", 1, 10, 5, 0, 0⟩])
     (by omega) (by decide) (by decide) (by decide) (by decide)⟩
